import Mathlib

/-!
Verification development for the `django_sorcery.db` package.

The package glues a web framework's request lifecycle to an ORM's
unit-of-work session: a thread-local session manager (`SQLAlchemy`),
keyword-argument primary-key lookup (`Query.get`), descriptor-style
query properties (`SQLAlchemy.queryproperty`), an `atomic` transaction
context, and request middleware that finalizes the session.

The shipped package file is documentation plus re-exports; the bodies of
`Query.get`, `queryproperty`, `atomic` and the middleware live in modules
not present here, so those operations are modelled from the package's
specification, as flagged on each definition.
-/

set_option autoImplicit false

namespace DjangoSorcery

/-- Column values stored in rows: the model columns used by the package
documentation are integer, string and boolean columns. -/
inductive Value where
  | int (i : Int)
  | str (s : String)
  | bool (b : Bool)
  deriving DecidableEq

/-- A database row: an association list from column name to value. -/
def Row : Type := List (String × Value)

instance : DecidableEq Row := by
  unfold Row
  infer_instance

/-- A declaratively mapped model class: its name and the declared
primary-key columns, in declared order. -/
structure ModelClass where
  name : String
  pkColumns : List String
  deriving DecidableEq

/-- Configuration errors the library itself raises: invalid/unordered
keyword arguments to keyword primary-key lookup, and use of a query
property before its model binding is resolved. -/
inductive ConfigError where
  | invalidPKFields
  | modelNotBound
  deriving DecidableEq

/-- An ORM session for one unit of work: `committed` rows are persisted
in the database, `flushed` rows have been sent to the transaction (visible
to queries in this unit of work, not yet committed), `pending` rows have
been added but not flushed. `sid` identifies the session object. -/
structure Session where
  sid : Nat
  committed : List Row
  flushed : List Row
  pending : List Row
  deriving DecidableEq

/-- Rows visible to a query built on this session (persisted rows plus
rows flushed in the current transaction). -/
def Session.visible (s : Session) : List Row :=
  s.committed ++ s.flushed

/-- Add rows to the session without flushing (the `db.add_all` proxy). -/
def Session.add_all (s : Session) (rows : List Row) : Session :=
  { s with pending := s.pending ++ rows }

/-- Flush pending rows to the transaction: they become visible to
queries in this unit of work, but are not committed. -/
def Session.flush (s : Session) : Session :=
  { s with flushed := s.flushed ++ s.pending, pending := [] }

/-- Commit the session: everything flushed or pending is persisted. -/
def Session.commit (s : Session) : Session :=
  { s with committed := s.committed ++ s.flushed ++ s.pending,
           flushed := [], pending := [] }

/-- Roll back the session: uncommitted work is discarded. -/
def Session.rollback (s : Session) : Session :=
  { s with flushed := [], pending := [] }

/-- A query object: the model it selects, the identity of the session it
was built from, the rows visible to it, and the equality filters applied
so far. The query is inert data until it is executed with `Query.all`. -/
structure Query where
  model : ModelClass
  sessionId : Nat
  rows : List Row
  filters : List (String × Value)
  deriving DecidableEq

/-- `session.query(Model)`: a fresh, unfiltered query over the rows
visible to the session. -/
def Session.query (s : Session) (m : ModelClass) : Query :=
  { model := m, sessionId := s.sid, rows := s.visible, filters := [] }

/-- `query.filter_by(**kwargs)`: refine the query with further equality
filters on column names. -/
def Query.filter_by (q : Query) (kwargs : List (String × Value)) : Query :=
  { q with filters := q.filters ++ kwargs }

/-- Whether a row satisfies one equality filter. -/
def rowMatches (r : Row) (f : String × Value) : Bool :=
  decide (List.lookup f.1 r = some f.2)

/-- Execute the query: all visible rows satisfying every filter. -/
def Query.all (q : Query) : List Row :=
  q.rows.filter (fun r => q.filters.all (rowMatches r))

/-- Look every given column up in an association list, in order
(`none` as soon as one column is absent). -/
def lookupAll (cols : List String) (r : List (String × Value)) :
    Option (List Value) :=
  match cols with
  | [] => some []
  | c :: cs =>
      match List.lookup c r, lookupAll cs r with
      | some v, some vs => some (v :: vs)
      | _, _ => none

/-- The primary-key values of a row, in the model's declared column
order (`none` when a declared primary-key column is absent). -/
def pkValues (m : ModelClass) (r : Row) : Option (List Value) :=
  lookupAll m.pkColumns r

/-- SQLAlchemy's positional `Query.get`: look a row up by its
primary-key values given in the declared primary-key column order. -/
def Query.getPositional (q : Query) (vals : List Value) : Option Row :=
  q.rows.find? (fun r => decide (pkValues q.model r = some vals))

/-- Modelled from the spec: `Query.get(**pk_fields)` of the package's
special session-backed query class (module `django_sorcery.db.query`,
absent from the sources). It resolves a single row by composite primary
key using named fields, by first validating the supplied field names
against the model's declared primary-key columns — an ordering mismatch
or an unknown field name raises a configuration error — and then
delegating to the ORM's positional lookup in the declared column order. -/
def Query.get (q : Query) (kwargs : List (String × Value)) :
    Except ConfigError (Option Row) :=
  if kwargs.map Prod.fst = q.model.pkColumns then
    Except.ok (q.getPositional (kwargs.map Prod.snd))
  else
    Except.error ConfigError.invalidPKFields

/-- The supplied keyword values rearranged into the model's declared
primary-key column order. -/
def arrangeByPK (m : ModelClass) (kwargs : List (String × Value)) :
    Option (List Value) :=
  lookupAll m.pkColumns kwargs

/-- Modelled from the spec: the thread-local state of the `SQLAlchemy`
manager (module `django_sorcery.db.sqlalchemy`, absent from the sources).
It maps each thread identifier to that thread's session; `nextId`
numbers freshly created session objects. -/
structure SessionManager where
  sessions : List (Nat × Session)
  nextId : Nat
  deriving DecidableEq

/-- A manager with no sessions yet. -/
def SessionManager.init : SessionManager :=
  { sessions := [], nextId := 0 }

/-- Modelled from the spec: `get_session()` returns the current thread's
session, creating a fresh one lazily if the thread has none. -/
def SessionManager.getSession (m : SessionManager) (tid : Nat) :
    Session × SessionManager :=
  match List.lookup tid m.sessions with
  | some s => (s, m)
  | none =>
      let s : Session :=
        { sid := m.nextId, committed := [], flushed := [], pending := [] }
      (s, { sessions := (tid, s) :: m.sessions, nextId := m.nextId + 1 })

/-- Apply a session operation to the current thread's session, creating
the session first if the thread has none. -/
def SessionManager.updateSession (m : SessionManager) (tid : Nat)
    (f : Session → Session) : SessionManager :=
  let p := m.getSession tid
  { p.2 with
    sessions := (tid, f p.1) :: p.2.sessions.filter (fun e => e.1 ≠ tid) }

/-- Modelled from the spec: the `db.add_all` proxy call, forwarded to the
current thread's session. -/
def SessionManager.add_all (m : SessionManager) (tid : Nat)
    (rows : List Row) : SessionManager :=
  m.updateSession tid (fun s => s.add_all rows)

/-- Modelled from the spec: the `db.flush` proxy call, forwarded to the
current thread's session. -/
def SessionManager.flushCall (m : SessionManager) (tid : Nat) :
    SessionManager :=
  m.updateSession tid Session.flush

/-- Modelled from the spec: a query property (`SQLAlchemy.queryproperty`).
It is a configuration pair of an optional model class — deferred and
auto-detected from the owning class when absent — and the default filter
keyword arguments. It holds no other state. -/
structure QueryProperty where
  model : Option ModelClass
  defaults : List (String × Value)
  deriving DecidableEq

/-- The model a query property access resolves to: the one given at
construction, else the one inferred from the owning class. -/
def QueryProperty.resolveModel (qp : QueryProperty)
    (owner : Option ModelClass) : Option ModelClass :=
  qp.model.orElse (fun _ => owner)

/-- Modelled from the spec: attribute access on a query property. It
resolves the model (a configuration error if none is bound), fetches the
live session for the current thread via the session manager, constructs
`session.query(Model)`, applies `.filter_by(**defaults)` and returns the
resulting query object together with the (possibly lazily extended)
manager state. -/
def QueryProperty.access (qp : QueryProperty) (owner : Option ModelClass)
    (m : SessionManager) (tid : Nat) :
    Except ConfigError (Query × SessionManager) :=
  match qp.resolveModel owner with
  | none => Except.error ConfigError.modelNotBound
  | some mc =>
      let p := m.getSession tid
      Except.ok ((p.1.query mc).filter_by qp.defaults, p.2)

/-- The statements a transaction block executes in our model: adding a
row through the session, or raising an exception. -/
inductive Cmd where
  | add (r : Row)
  | raiseExc (e : String)
  deriving DecidableEq

/-- Run a block of statements against a session. A raise aborts the
block, reporting the exception and the session state at that point. -/
def runBlock : List Cmd → Session → Except (String × Session) Session
  | [], s => Except.ok s
  | Cmd.add r :: cs, s => runBlock cs (s.add_all [r])
  | Cmd.raiseExc e :: _, s => Except.error (e, s)

/-- The rows a block writes before raising (all of them when it does not
raise). -/
def blockWrites : List Cmd → List Row
  | [] => []
  | Cmd.add r :: cs => r :: blockWrites cs
  | Cmd.raiseExc _ :: _ => []

/-- Modelled from the spec: `SQLAlchemy.atomic(savepoint=False)` used as
a context manager around a block. On successful exit it commits; when
the block raises it rolls back the session and re-raises the exception
to the caller. -/
def atomic (cmds : List Cmd) (s : Session) : Session × Option String :=
  match runBlock cmds s with
  | Except.ok s2 => (s2.commit, none)
  | Except.error (e, s2) => (s2.rollback, some e)

/-- Modelled from the spec: the Django middleware generated by the
manager. It runs once per request, after the response is produced, and
finalizes the thread-local session: commit on success, rollback when the
handler raised, then close and remove the session from the thread-local
storage. It returns the rows persisted in the database afterwards and
the new manager state. -/
def middleware (m : SessionManager) (tid : Nat) (handlerOk : Bool) :
    List Row × SessionManager :=
  let p := m.getSession tid
  let s2 := if handlerOk then p.1.commit else p.1.rollback
  (s2.committed,
   { p.2 with sessions := p.2.sessions.filter (fun e => e.1 ≠ tid) })

/-! ### Helper lemmas -/

theorem lookup_cons_ne {β : Type} (c k : String) (v : β)
    (l : List (String × β)) (h : c ≠ k) :
    List.lookup c ((k, v) :: l) = List.lookup c l := by
  simp [List.lookup, beq_eq_false_iff_ne.mpr h]

theorem lookup_cons_self {β : Type} (k : String) (v : β)
    (l : List (String × β)) :
    List.lookup k ((k, v) :: l) = some v := by
  simp [List.lookup]

theorem lookupAll_cons_ne (cols : List String) (k : String) (v : Value)
    (l : List (String × Value)) (h : k ∉ cols) :
    lookupAll cols ((k, v) :: l) = lookupAll cols l := by
  induction cols with
  | nil => rfl
  | cons c cs ih =>
      have hck : c ≠ k := fun hck => h (by simp [hck])
      have hcs : k ∉ cs := fun hk => h (by simp [hk])
      simp [lookupAll, lookup_cons_ne c k v l hck, ih hcs]

theorem lookupAll_keys (kwargs : List (String × Value))
    (hnd : (kwargs.map Prod.fst).Nodup) :
    lookupAll (kwargs.map Prod.fst) kwargs = some (kwargs.map Prod.snd) := by
  induction kwargs with
  | nil => rfl
  | cons p rest ih =>
      obtain ⟨k, v⟩ := p
      rw [List.map_cons] at hnd
      have hk : k ∉ rest.map Prod.fst := (List.nodup_cons.mp hnd).1
      have hnd2 : (rest.map Prod.fst).Nodup := (List.nodup_cons.mp hnd).2
      simp [lookupAll, lookup_cons_self,
        lookupAll_cons_ne (rest.map Prod.fst) k v rest hk, ih hnd2]

/-! ### Claims -/

/-- Claim C1: for every model with a (possibly composite) primary key and
every valid set of keyword primary-key fields, `get(**pk_fields)` returns
the same row as the ORM's positional `get()` called with the same field
values arranged in the model's declared primary-key column order. -/
theorem get_kw_eq_positional (q : Query) (kwargs : List (String × Value))
    (hkeys : kwargs.map Prod.fst = q.model.pkColumns)
    (hnd : q.model.pkColumns.Nodup) :
    arrangeByPK q.model kwargs = some (kwargs.map Prod.snd) ∧
    Query.get q kwargs =
      Except.ok (q.getPositional (kwargs.map Prod.snd)) := by
  constructor
  · unfold arrangeByPK
    rw [← hkeys]
    exact lookupAll_keys kwargs (by rw [hkeys]; exact hnd)
  · unfold Query.get
    rw [if_pos hkeys]

/-- Example model of the package documentation: a composite primary key
over the columns `id` and `id2`, in that declared order. -/
def fooModel : ModelClass := ⟨"FooModel", ["id", "id2"]⟩

/-- A single-row query over `fooModel`. -/
def fooQuery : Query :=
  ⟨fooModel, 0,
   [[("id", Value.int 123), ("id2", Value.int 456), ("name", Value.str "x")]],
   []⟩

theorem get_kw_eq_positional_witness :
    arrangeByPK fooModel
        [("id", Value.int 123), ("id2", Value.int 456)] =
      some [Value.int 123, Value.int 456] ∧
    Query.get fooQuery [("id", Value.int 123), ("id2", Value.int 456)] =
      Except.ok (fooQuery.getPositional [Value.int 123, Value.int 456]) :=
  get_kw_eq_positional fooQuery
    [("id", Value.int 123), ("id2", Value.int 456)] (by decide) (by decide)

/-- Claim C5: for every call to keyword primary-key lookup
`get(**pk_fields)`, if any supplied field name is not among the model's
declared primary-key columns, or the supplied fields mismatch the
declared ordering, the call raises a configuration error synchronously
to the caller; `Query.get` is a single evaluation with no retry. -/
theorem get_kw_config_error (q : Query) (kwargs : List (String × Value))
    (h : (∃ k ∈ kwargs.map Prod.fst, k ∉ q.model.pkColumns) ∨
      kwargs.map Prod.fst ≠ q.model.pkColumns) :
    Query.get q kwargs = Except.error ConfigError.invalidPKFields := by
  have hne : kwargs.map Prod.fst ≠ q.model.pkColumns := by
    rcases h with ⟨k, hk, hnot⟩ | hne
    · intro heq
      exact hnot (heq ▸ hk)
    · exact hne
  unfold Query.get
  rw [if_neg hne]

theorem get_kw_config_error_witness :
    Query.get fooQuery [("nope", Value.int 1)] =
      Except.error ConfigError.invalidPKFields :=
  get_kw_config_error fooQuery [("nope", Value.int 1)] (by decide)

theorem runBlock_ok_spec (cmds : List Cmd) (s s2 : Session)
    (h : runBlock cmds s = Except.ok s2) :
    s2.sid = s.sid ∧ s2.committed = s.committed ∧ s2.flushed = s.flushed ∧
      s2.pending = s.pending ++ blockWrites cmds := by
  induction cmds generalizing s with
  | nil =>
      simp [runBlock] at h
      simp [← h, blockWrites]
  | cons c cs ih =>
      cases c with
      | add r =>
          simp only [runBlock] at h
          have := ih (s.add_all [r]) h
          simpa [Session.add_all, blockWrites] using this
      | raiseExc e =>
          simp [runBlock] at h

theorem runBlock_err_spec (cmds : List Cmd) (s : Session) (e : String)
    (s2 : Session) (h : runBlock cmds s = Except.error (e, s2)) :
    s2.sid = s.sid ∧ s2.committed = s.committed ∧ s2.flushed = s.flushed := by
  induction cmds generalizing s with
  | nil =>
      simp [runBlock] at h
  | cons c cs ih =>
      cases c with
      | add r =>
          simp only [runBlock] at h
          have := ih (s.add_all [r]) h
          simpa [Session.add_all] using this
      | raiseExc e2 =>
          simp [runBlock] at h
          simp [← h.2, h.1]

/-- Claim C2: when `atomic(savepoint=False)` is used as a context
manager, all writes made inside the block are committed on normal exit;
if the block raises, no writes made inside the block remain persisted
(the session state is rolled back) and the exception is re-raised to the
caller. -/
theorem atomic_spec (cmds : List Cmd) (s : Session) :
    (∀ s2, runBlock cmds s = Except.ok s2 →
      (atomic cmds s).1.committed =
          s.committed ++ s.flushed ++ s.pending ++ blockWrites cmds ∧
        (atomic cmds s).2 = none) ∧
    (∀ e s2, runBlock cmds s = Except.error (e, s2) →
      (atomic cmds s).1.committed = s.committed ∧
        (atomic cmds s).1.flushed = [] ∧ (atomic cmds s).1.pending = [] ∧
        (atomic cmds s).2 = some e) := by
  constructor
  · intro s2 h
    obtain ⟨_, hc, hf, hp⟩ := runBlock_ok_spec cmds s s2 h
    simp [atomic, h, Session.commit, hc, hf, hp]
  · intro e s2 h
    obtain ⟨_, hc, _⟩ := runBlock_err_spec cmds s e s2 h
    simp [atomic, h, Session.rollback, hc]

/-- A fresh session with nothing committed, flushed or pending. -/
def emptySession : Session := ⟨0, [], [], []⟩

/-- A sample row used by the concrete instances below. -/
def sampleRow : Row := [("id", Value.int 7)]

theorem atomic_spec_witness :
    ((atomic [Cmd.add sampleRow] emptySession).1.committed =
        emptySession.committed ++ emptySession.flushed ++
          emptySession.pending ++ blockWrites [Cmd.add sampleRow] ∧
      (atomic [Cmd.add sampleRow] emptySession).2 = none) ∧
    ((atomic [Cmd.add sampleRow, Cmd.raiseExc "boom"] emptySession).1.committed =
        emptySession.committed ∧
      (atomic [Cmd.add sampleRow, Cmd.raiseExc "boom"] emptySession).1.flushed = [] ∧
      (atomic [Cmd.add sampleRow, Cmd.raiseExc "boom"] emptySession).1.pending = [] ∧
      (atomic [Cmd.add sampleRow, Cmd.raiseExc "boom"] emptySession).2 = some "boom") :=
  ⟨(atomic_spec [Cmd.add sampleRow] emptySession).1 _ rfl,
   (atomic_spec [Cmd.add sampleRow, Cmd.raiseExc "boom"] emptySession).2
     "boom" _ rfl⟩

/-- Claim C3: on every attribute access of a query property, the
descriptor fetches the current thread-local session from the session
manager, builds `session.query(Model)`, applies `.filter_by` with the
configured default keyword arguments, and returns that query object,
which the caller may further refine before execution. -/
theorem queryproperty_access_spec (qp : QueryProperty)
    (owner : Option ModelClass) (m : SessionManager) (tid : Nat)
    (mc : ModelClass) (hres : qp.resolveModel owner = some mc) :
    QueryProperty.access qp owner m tid =
      Except.ok (((m.getSession tid).1.query mc).filter_by qp.defaults,
        (m.getSession tid).2) ∧
    (((m.getSession tid).1.query mc).filter_by qp.defaults).filters =
      qp.defaults ∧
    (((m.getSession tid).1.query mc).filter_by qp.defaults).rows =
      (m.getSession tid).1.visible ∧
    ∀ extra,
      ((((m.getSession tid).1.query mc).filter_by qp.defaults).filter_by
          extra).filters = qp.defaults ++ extra := by
  refine ⟨?_, ?_, ?_, ?_⟩
  · unfold QueryProperty.access
    rw [hres]
  · simp [Session.query, Query.filter_by]
  · simp [Session.query, Query.filter_by]
  · intro extra
    simp [Session.query, Query.filter_by]

/-- The documentation's `UserModel`: primary key `id`, plus `username`
and `is_active` columns on its rows. -/
def userModel : ModelClass := ⟨"UserModel", ["id"]⟩

/-- The documentation row `UserModel(id=1, username='foo', is_active=False)`. -/
def row1 : Row :=
  [("id", Value.int 1), ("username", Value.str "foo"),
   ("is_active", Value.bool false)]

/-- The documentation row `UserModel(id=2, username='bar', is_active=True)`. -/
def row2 : Row :=
  [("id", Value.int 2), ("username", Value.str "bar"),
   ("is_active", Value.bool true)]

/-- The documentation's `active = db.queryproperty(is_active=True)`
manager, with the model bound at construction. -/
def activeProperty : QueryProperty :=
  ⟨some userModel, [("is_active", Value.bool true)]⟩

/-- The manager state after `db.add_all([row1, row2])` and `db.flush()`
on thread 0, starting from a fresh manager. -/
def userManager : SessionManager :=
  (SessionManager.init.add_all 0 [row1, row2]).flushCall 0

theorem queryproperty_access_spec_witness :
    QueryProperty.access activeProperty none userManager 0 =
      Except.ok
        (((userManager.getSession 0).1.query userModel).filter_by
            activeProperty.defaults,
         (userManager.getSession 0).2) ∧
    (((userManager.getSession 0).1.query userModel).filter_by
        activeProperty.defaults).filters = activeProperty.defaults ∧
    (((userManager.getSession 0).1.query userModel).filter_by
        activeProperty.defaults).rows = (userManager.getSession 0).1.visible ∧
    ∀ extra,
      ((((userManager.getSession 0).1.query userModel).filter_by
          activeProperty.defaults).filter_by extra).filters =
        activeProperty.defaults ++ extra :=
  queryproperty_access_spec activeProperty none userManager 0 userModel rfl

/-- Claim C4: for a query property configured with default filter
`{is_active: True}` on a table containing exactly the rows
`{id=1, is_active=False}` and `{id=2, is_active=True}`, evaluating the
property's query returns exactly the row with id=2 and no other row. -/
theorem active_query_returns_only_row2 :
    (QueryProperty.access activeProperty none userManager 0).map
        (fun p => p.1.all) = Except.ok [row2] := by
  rfl

/-- Claim C6: accessing a query property before any model class is bound
to it signals a configuration error, and a query property has no other
error path of its own. -/
theorem queryproperty_error_iff (qp : QueryProperty)
    (owner : Option ModelClass) (m : SessionManager) (tid : Nat) :
    (QueryProperty.access qp owner m tid =
        Except.error ConfigError.modelNotBound ↔
      qp.resolveModel owner = none) ∧
    ∀ e, QueryProperty.access qp owner m tid = Except.error e →
      e = ConfigError.modelNotBound := by
  constructor
  · constructor
    · intro h
      cases hres : qp.resolveModel owner with
      | none => rfl
      | some mc =>
          unfold QueryProperty.access at h
          rw [hres] at h
          exact absurd h (by simp)
    · intro h
      unfold QueryProperty.access
      rw [h]
  · intro e h
    cases hres : qp.resolveModel owner with
    | none =>
        unfold QueryProperty.access at h
        rw [hres] at h
        exact (Except.error.injEq _ _ ▸ h).symm
    | some mc =>
        unfold QueryProperty.access at h
        rw [hres] at h
        exact absurd h (by simp)

/-- A query property with no model given at construction. -/
def unboundProperty : QueryProperty := ⟨none, []⟩

theorem queryproperty_error_iff_witness :
    QueryProperty.access unboundProperty none SessionManager.init 0 =
      Except.error ConfigError.modelNotBound :=
  (queryproperty_error_iff unboundProperty none SessionManager.init 0).1.mpr
    rfl

/-- Claim C7: a query property holds no mutable state and never caches a
query object across accesses: every access re-derives a fresh query from
the current thread-local session, so two accesses in different units of
work never return a query bound to a stale session. -/
theorem queryproperty_no_cache (qp : QueryProperty)
    (owner : Option ModelClass) (mc : ModelClass)
    (hres : qp.resolveModel owner = some mc)
    (m1 m2 : SessionManager) (t1 t2 : Nat) :
    ∃ q1 n1 q2 n2,
      QueryProperty.access qp owner m1 t1 = Except.ok (q1, n1) ∧
      QueryProperty.access qp owner m2 t2 = Except.ok (q2, n2) ∧
      q1.sessionId = ((m1.getSession t1).1).sid ∧
      q2.sessionId = ((m2.getSession t2).1).sid ∧
      (((m1.getSession t1).1).sid ≠ ((m2.getSession t2).1).sid →
        q1.sessionId ≠ q2.sessionId) := by
  refine ⟨((m1.getSession t1).1.query mc).filter_by qp.defaults,
    (m1.getSession t1).2,
    ((m2.getSession t2).1.query mc).filter_by qp.defaults,
    (m2.getSession t2).2, ?_, ?_, ?_, ?_, ?_⟩
  · unfold QueryProperty.access
    rw [hres]
  · unfold QueryProperty.access
    rw [hres]
  · simp [Session.query, Query.filter_by]
  · simp [Session.query, Query.filter_by]
  · intro hne
    simpa [Session.query, Query.filter_by] using hne

theorem queryproperty_no_cache_witness :
    ∃ q1 n1 q2 n2,
      QueryProperty.access activeProperty none SessionManager.init 0 =
        Except.ok (q1, n1) ∧
      QueryProperty.access activeProperty none
          ((SessionManager.init.getSession 0).2.getSession 1).2 1 =
        Except.ok (q2, n2) ∧
      q1.sessionId = ((SessionManager.init.getSession 0).1).sid ∧
      q2.sessionId =
        (((((SessionManager.init.getSession 0).2.getSession 1).2).getSession
            1).1).sid ∧
      (((SessionManager.init.getSession 0).1).sid ≠
          (((((SessionManager.init.getSession 0).2.getSession 1).2).getSession
              1).1).sid →
        q1.sessionId ≠ q2.sessionId) :=
  queryproperty_no_cache activeProperty none userModel rfl
    SessionManager.init ((SessionManager.init.getSession 0).2.getSession 1).2
    0 1

theorem lookup_filter_self (l : List (Nat × Session)) (tid : Nat) :
    List.lookup tid (l.filter (fun e => e.1 ≠ tid)) = none := by
  simp
  intro a b hmem hna h
  exact hna h.symm

theorem lookup_filter_ne (l : List (Nat × Session)) (tid t2 : Nat)
    (hne : t2 ≠ tid) :
    List.lookup t2 (l.filter (fun e => e.1 ≠ tid)) = List.lookup t2 l := by
  induction l with
  | nil => rfl
  | cons p l ih =>
      rw [List.filter_cons]
      by_cases h : p.1 = tid
      · rw [if_neg (by simp [h])]
        rw [ih]
        have hbeq : (t2 == p.1) = false :=
          beq_eq_false_iff_ne.mpr (fun he => hne (he.trans h))
        simp [List.lookup, hbeq]
      · rw [if_pos (by simpa using h)]
        simp only [List.lookup]
        cases hbe : t2 == p.1
        · simpa using ih
        · simp

/-- Claim C8: for every request whose handler wrote rows still
uncommitted when the handler returns, running the middleware after the
handler persists those rows exactly once — committed a single time,
neither dropped nor committed twice — after which the session is
finalized and removed. -/
theorem middleware_commits_once (m : SessionManager) (tid : Nat)
    (s : Session) (hs : List.lookup tid m.sessions = some s) (r : Row)
    (hwrote : (s.flushed ++ s.pending).count r = 1)
    (hnew : s.committed.count r = 0) :
    (middleware m tid true).1.count r = 1 ∧
    List.lookup tid (middleware m tid true).2.sessions = none := by
  have hget : m.getSession tid = (s, m) := by
    simp [SessionManager.getSession, hs]
  rw [List.count_append] at hwrote
  constructor
  · simp [middleware, hget, Session.commit, List.count_append, hnew]
    omega
  · simp only [middleware, hget]
    exact lookup_filter_self m.sessions tid

/-- A manager whose thread-0 session wrote `sampleRow` without
committing it. -/
def wroteManager : SessionManager :=
  ⟨[(0, ⟨0, [], [sampleRow], []⟩)], 1⟩

theorem middleware_commits_once_witness :
    (middleware wroteManager 0 true).1.count sampleRow = 1 ∧
    List.lookup 0 (middleware wroteManager 0 true).2.sessions = none :=
  middleware_commits_once wroteManager 0 ⟨0, [], [sampleRow], []⟩ rfl
    sampleRow (by decide) (by decide)

theorem lookup_mem (l : List (Nat × Session)) (t : Nat) (s : Session)
    (h : List.lookup t l = some s) : (t, s) ∈ l := by
  induction l with
  | nil => cases h
  | cons p l ih =>
      by_cases h1 : t = p.1
      · have hb : (t == p.1) = true := beq_iff_eq.mpr h1
        simp [List.lookup, hb] at h
        rw [h1, ← h]
        exact List.mem_cons_self p l
      · have hb : (t == p.1) = false := beq_eq_false_iff_ne.mpr h1
        simp [List.lookup, hb] at h
        exact List.mem_cons_of_mem p (ih h)

theorem lookup_sid_ne (l : List (Nat × Session))
    (hnd : (l.map (fun p => p.2.sid)).Nodup) (t1 t2 : Nat) (s1 s2 : Session)
    (hne : t1 ≠ t2) (h1 : List.lookup t1 l = some s1)
    (h2 : List.lookup t2 l = some s2) : s1.sid ≠ s2.sid := by
  induction l with
  | nil => cases h1
  | cons p l ih =>
      rw [List.map_cons] at hnd
      obtain ⟨hhead, htail⟩ := List.nodup_cons.mp hnd
      by_cases e1 : t1 = p.1
      · have hb1 : (t1 == p.1) = true := beq_iff_eq.mpr e1
        simp [List.lookup, hb1] at h1
        have e2 : t2 ≠ p.1 := fun h => hne (e1.trans h.symm)
        have hb2 : (t2 == p.1) = false := beq_eq_false_iff_ne.mpr e2
        simp [List.lookup, hb2] at h2
        have hm : s2.sid ∈ l.map (fun p => p.2.sid) :=
          List.mem_map_of_mem _ (lookup_mem l t2 s2 h2)
        rw [← h1]
        exact fun heq => hhead (heq ▸ hm)
      · have hb1 : (t1 == p.1) = false := beq_eq_false_iff_ne.mpr e1
        simp [List.lookup, hb1] at h1
        by_cases e2 : t2 = p.1
        · have hb2 : (t2 == p.1) = true := beq_iff_eq.mpr e2
          simp [List.lookup, hb2] at h2
          have hm : s1.sid ∈ l.map (fun p => p.2.sid) :=
            List.mem_map_of_mem _ (lookup_mem l t1 s1 h1)
          rw [← h2]
          exact fun heq => hhead (heq ▸ hm)
        · have hb2 : (t2 == p.1) = false := beq_eq_false_iff_ne.mpr e2
          simp [List.lookup, hb2] at h2
          exact ih htail h1 h2

/-- Well-formedness of the thread-local session storage: each thread has
at most one entry, the stored session objects are pairwise distinct, and
all session identifiers are below the fresh-identifier counter. -/
def SessionManager.WF (m : SessionManager) : Prop :=
  (m.sessions.map Prod.fst).Nodup ∧
  (m.sessions.map (fun p => p.2.sid)).Nodup ∧
  ∀ p ∈ m.sessions, p.2.sid < m.nextId

/-- Claim C9: for any two requests handled on different threads, each
thread holds at most one active session at a time and neither request
ever observes the other's session object: the sessions of the two
threads are distinct objects, and session operations keyed to one thread
leave the other thread's session untouched. -/
theorem thread_isolation (m : SessionManager) (hwf : m.WF) (t1 t2 : Nat)
    (hne : t1 ≠ t2) :
    ((m.getSession t1).1).sid ≠ (((m.getSession t1).2.getSession t2).1).sid ∧
    (∀ f s, List.lookup t2 m.sessions = some s →
      List.lookup t2 (m.updateSession t1 f).sessions = some s) ∧
    (m.sessions.map Prod.fst).Nodup := by
  obtain ⟨hkeys, hsids, hbound⟩ := hwf
  refine ⟨?_, ?_, hkeys⟩
  · cases hl1 : List.lookup t1 m.sessions with
    | some s1 =>
        have hg1 : m.getSession t1 = (s1, m) := by
          simp [SessionManager.getSession, hl1]
        rw [hg1]
        cases hl2 : List.lookup t2 m.sessions with
        | some s2 =>
            have hg2 : m.getSession t2 = (s2, m) := by
              simp [SessionManager.getSession, hl2]
            simp only [hg2]
            exact lookup_sid_ne m.sessions hsids t1 t2 s1 s2 hne hl1 hl2
        | none =>
            have hlt : s1.sid < m.nextId :=
              hbound (t1, s1) (lookup_mem _ _ _ hl1)
            simp [SessionManager.getSession, hl2]
            omega
    | none =>
        have hb2 : (t2 == t1) = false := beq_eq_false_iff_ne.mpr (Ne.symm hne)
        cases hl2 : List.lookup t2 m.sessions with
        | some s2 =>
            have hlt : s2.sid < m.nextId :=
              hbound (t2, s2) (lookup_mem _ _ _ hl2)
            simp [SessionManager.getSession, hl1, List.lookup, hb2, hl2]
            omega
        | none =>
            simp [SessionManager.getSession, hl1, List.lookup, hb2, hl2]
  · intro f s hl2
    have hb2 : (t2 == t1) = false := beq_eq_false_iff_ne.mpr (Ne.symm hne)
    cases hl1 : List.lookup t1 m.sessions with
    | some s1 =>
        simp only [SessionManager.updateSession, SessionManager.getSession,
          hl1, List.lookup, hb2]
        rw [lookup_filter_ne m.sessions t1 t2 (Ne.symm hne)]
        exact hl2
    | none =>
        simp only [SessionManager.updateSession, SessionManager.getSession,
          hl1, List.lookup, hb2]
        rw [lookup_filter_ne _ t1 t2 (Ne.symm hne)]
        simp only [List.lookup, hb2]
        exact hl2

/-- A manager holding distinct sessions for threads 0 and 1. -/
def twoThreadManager : SessionManager :=
  ⟨[(0, ⟨0, [], [], []⟩), (1, ⟨1, [], [], []⟩)], 2⟩

theorem thread_isolation_witness :
    ((twoThreadManager.getSession 0).1).sid ≠
      (((twoThreadManager.getSession 0).2.getSession 1).1).sid ∧
    (∀ f s, List.lookup 1 twoThreadManager.sessions = some s →
      List.lookup 1 (twoThreadManager.updateSession 0 f).sessions = some s) ∧
    (twoThreadManager.sessions.map Prod.fst).Nodup :=
  thread_isolation twoThreadManager ⟨by decide, by decide, by decide⟩ 0 1
    (by decide)

theorem getSession_updateSession (m : SessionManager) (tid : Nat)
    (f : Session → Session) :
    ((m.updateSession tid f).getSession tid).1 = f (m.getSession tid).1 := by
  have h : List.lookup tid (m.updateSession tid f).sessions =
      some (f (m.getSession tid).1) := by
    unfold SessionManager.updateSession
    simp [List.lookup]
  simp [SessionManager.getSession, h]

/-- Claim C10: session-proxy calls on the manager (`db.add_all`,
`db.flush`) and query-property accesses operate on the same thread-local
session within one unit of work: rows added through the proxy and
flushed are visible to every query-property query evaluated afterwards
in that unit of work, before any commit. -/
theorem proxy_and_queryproperty_share_session (m : SessionManager)
    (tid : Nat) (qp : QueryProperty) (owner : Option ModelClass)
    (mc : ModelClass) (hres : qp.resolveModel owner = some mc)
    (rows : List Row) :
    QueryProperty.access qp owner ((m.add_all tid rows).flushCall tid) tid =
      Except.ok
        (((((m.add_all tid rows).flushCall tid).getSession tid).1.query
            mc).filter_by qp.defaults,
         (((m.add_all tid rows).flushCall tid).getSession tid).2) ∧
    (((((m.add_all tid rows).flushCall tid).getSession tid).1.query
        mc).filter_by qp.defaults).sessionId =
      ((m.getSession tid).1).sid ∧
    (((((m.add_all tid rows).flushCall tid).getSession tid).1.query
        mc).filter_by qp.defaults).rows =
      ((m.getSession tid).1).visible ++ ((m.getSession tid).1).pending ++
        rows ∧
    (((m.add_all tid rows).flushCall tid).getSession tid).1.committed =
      ((m.getSession tid).1).committed := by
  have hsess : (((m.add_all tid rows).flushCall tid).getSession tid).1 =
      Session.flush (Session.add_all (m.getSession tid).1 rows) := by
    unfold SessionManager.add_all SessionManager.flushCall
    rw [getSession_updateSession, getSession_updateSession]
  refine ⟨?_, ?_, ?_, ?_⟩
  · unfold QueryProperty.access
    rw [hres]
  · rw [hsess]
    simp [Session.flush, Session.add_all, Session.query, Query.filter_by]
  · rw [hsess]
    simp [Session.flush, Session.add_all, Session.query, Query.filter_by,
      Session.visible]
  · rw [hsess]
    simp [Session.flush, Session.add_all]

theorem proxy_and_queryproperty_share_session_witness :
    QueryProperty.access activeProperty none
        ((SessionManager.init.add_all 0 [row1]).flushCall 0) 0 =
      Except.ok
        (((((SessionManager.init.add_all 0 [row1]).flushCall 0).getSession
              0).1.query userModel).filter_by activeProperty.defaults,
         (((SessionManager.init.add_all 0 [row1]).flushCall 0).getSession
             0).2) ∧
    (((((SessionManager.init.add_all 0 [row1]).flushCall 0).getSession
        0).1.query userModel).filter_by activeProperty.defaults).sessionId =
      ((SessionManager.init.getSession 0).1).sid ∧
    (((((SessionManager.init.add_all 0 [row1]).flushCall 0).getSession
        0).1.query userModel).filter_by activeProperty.defaults).rows =
      ((SessionManager.init.getSession 0).1).visible ++
        ((SessionManager.init.getSession 0).1).pending ++ [row1] ∧
    (((SessionManager.init.add_all 0 [row1]).flushCall 0).getSession
        0).1.committed = ((SessionManager.init.getSession 0).1).committed :=
  proxy_and_queryproperty_share_session SessionManager.init 0
    activeProperty none userModel rfl [row1]

end DjangoSorcery
